import Mathlib

set_option autoImplicit false

/-!
Verification development for the emotion-light-sound repository.

The definitions below are shallow embeddings of the Python sources:
* `server/src/music_gen/music_generator.py` — `MusicGenerator`,
  `InstanceItem`, `QueueManager`;
* `client/src/opencv_face/face_detection.py` — `calculate_confidence`
  and the frame-skipping `detect_faces` entry point;
* `server/src/cloud_server_api/main.py` — the `music_urls` registry,
  `get_music` and `remove_file_and_entry`.

Slow external capabilities (the text-to-audio synthesiser, the DeepFace
analysis call, image re-encoding) are passed in as function parameters,
mirroring their role as pluggable collaborators.  Byte buffers are
modelled as `String`, scores as `ℚ`.
-/

/-- Python `str.lower()` (ASCII case folding), as used on emotion labels in
`MusicGenerator.emotion_to_prompt`. -/
def pyLower (s : String) : String := ⟨s.data.map Char.toLower⟩

/-- The `"neutral"` entry of the `emotion_prompt` dictionary built in
`MusicGenerator.__init__`. -/
def neutralPrompt : String :=
  "Lo-fi, peaceful steady beat, smooth synthesizer, relaxing, neutral atmosphere, background music, chill, rhythmic, flow, minimal"

/-- The `emotion_prompt` dictionary of `MusicGenerator.__init__`, as a lookup
function over its seven keys. -/
def emotion_prompt : String → Option String
  | "happy" => some "Uplifting EDM, Progressive House, major key, bright synthesizer leads, energetic beat, euphoria, danceable, optimistic, catchy melody"
  | "sad" => some "Emotional EDM,no drums ,sad piano melody, orchestral string section, cinematic atmosphere, slow electronic beat, deep synthesizer bass, melancholic, sentimental, touching"
  | "angry" => some "Epic Orchestral EDM, Epic cinematic score, deep brass, aggressive strings, dark choir, building tension, minimal percussion, overwhelming"
  | "fear" => some "Dark Ambient Soundscape, horror atmosphere, environmental sounds, eerie wind, distant metallic echoes, creepy synth texture, suspenseful, psychological, unsettling, cold"
  | "disgust" => some "Glitchy electronic music, Acid Techno, squelchy synth, distorted texture, weird rhythm, uncomfortable, dissonant, odd, unpleasant, experimental"
  | "surprise" => some "Cinematic EDM, circus music, fast, chaotic, calliope, brass band, playful, comedic shock."
  | "neutral" => some neutralPrompt
  | _ => none

/-- `MusicGenerator.emotion_to_prompt`: look the lowercased label up in the
dictionary, fall back to the `"neutral"` prompt, and append the tonic. -/
def emotion_to_prompt (emotion : String) : String :=
  let tonic := "C key"
  (emotion_prompt (pyLower emotion)).getD neutralPrompt ++ ", " ++ tonic

/-- Failure modes of `MusicGenerator.generate`: the two explicit `ValueError`
raises and the `RuntimeError` re-raised from the synthesiser call. -/
inductive GenError
  | emptyPrompt
  | negDuration
  | runtimeError (msg : String)
deriving DecidableEq, Repr

/-- `MusicGenerator.generate`, with the text-to-audio pipeline (and the WAV
re-encoding of its output) abstracted as the `synthesiser` parameter. -/
def generate (synthesiser : String → Except String String) (emotion : String)
    (duration : Int) : Except GenError String :=
  let prompt := emotion_to_prompt emotion
  if prompt = "" then .error .emptyPrompt
  else if duration < 0 then .error .negDuration
  else
    match synthesiser prompt with
    | .ok wav => .ok wav
    | .error e => .error (.runtimeError e)

/-- The pydantic model `InstanceItem` of `music_generator.py`.  Metadata is an
opaque key-value map, modelled as an association list. -/
structure InstanceItem where
  sid : Option String := none
  client_id : Option String := none
  stage : String
  emotion : String
  metadata : List (String × String) := []
deriving DecidableEq, Repr

/-- Python truthiness normalisation `values.get(k) or None` used by
`InstanceItem.check_sid_or_client_id`: an empty string becomes `None`. -/
def orNone : Option String → Option String
  | some s => if s = "" then none else some s
  | none => none

/-- The `model_validator` `InstanceItem.check_sid_or_client_id`: reject when
neither `sid` nor `client_id` is provided (after truthiness normalisation). -/
def check_sid_or_client_id (sid client_id : Option String) :
    Except String Unit :=
  if orNone sid = none ∧ orNone client_id = none then
    .error "ValidationError"
  else .ok ()

/-- Construction of an `InstanceItem`, running the model validator first, as
pydantic does when `QueueManager.add_item` builds the item. -/
def mkInstanceItem (sid client_id : Option String) (stage emotion : String)
    (metadata : List (String × String)) : Except String InstanceItem :=
  match check_sid_or_client_id sid client_id with
  | .error e => .error e
  | .ok _ =>
      .ok { sid := sid, client_id := client_id, stage := stage,
            emotion := emotion, metadata := metadata }

/-- The mutable state of `QueueManager`: the two pending slots, the keep-alive
record, and the wake event (`asyncio.Event` modelled as its set flag). -/
structure QueueState where
  latest_post_item : Option InstanceItem
  latest_pre_item : Option InstanceItem
  last_post_item : Option InstanceItem
  new_item_event : Bool
deriving DecidableEq, Repr

/-- The state produced by `QueueManager.__init__`. -/
def initQueueState : QueueState :=
  { latest_post_item := none, latest_pre_item := none,
    last_post_item := none, new_item_event := false }

/-- The slot-update section of `QueueManager.add_item` (the body under
`self._queue_lock`): overwrite the slot matching the item's stage, leave the
slots untouched on an unknown stage, and set the wake event in every case. -/
def add_item (item : InstanceItem) (st : QueueState) : QueueState :=
  let st' :=
    if item.stage = "post" then { st with latest_post_item := some item }
    else if item.stage = "pre" then { st with latest_pre_item := some item }
    else st
  { st' with new_item_event := true }

/-- The whole of `QueueManager.add_item`: construct the `InstanceItem` (which
can raise) and only then update the pending slots.  On a validation failure
the queue state is returned unchanged. -/
def add_item_checked (sid client_id : Option String) (stage emotion : String)
    (metadata : List (String × String)) (st : QueueState) :
    Except String Unit × QueueState :=
  match mkInstanceItem sid client_id stage emotion metadata with
  | .error e => (.error e, st)
  | .ok item => (.ok (), add_item item st)

/-- The item-selection section of `QueueManager.runner` (the body under
`self._queue_lock` after the event wait): clear the event, then take the
latest post item, else the latest pre item, else re-offer the last completed
post item re-arming the event, else nothing. -/
def selectNext (st : QueueState) : Option InstanceItem × QueueState :=
  let st0 := { st with new_item_event := false }
  match st0.latest_post_item with
  | some item => (some item, { st0 with latest_post_item := none })
  | none =>
    match st0.latest_pre_item with
    | some item => (some item, { st0 with latest_pre_item := none })
    | none =>
      match st0.last_post_item with
      | some item => (some item, { st0 with new_item_event := true })
      | none => (none, st0)

/-- A completed hand-off from the worker loop to the result dispatcher
(`notify_socketio_client_music_generated` / `create_url`). -/
structure Dispatch where
  item : InstanceItem
  music : String
deriving DecidableEq, Repr

/-- One iteration of the `QueueManager.runner` loop, with the blocking
`generate` call abstracted as `gen`.  If the event is unset the wait blocks
(no state change, nothing dispatched).  Otherwise select an item; if its
generation call raises, the exception leaves the loop (there is no handler
around the `await asyncio.to_thread(...)` call).  On success the keep-alive
record is updated for post items, the event is set again, and the result is
handed to the dispatcher. -/
def runnerStep (gen : String → Except GenError String) (st : QueueState) :
    Except GenError (QueueState × Option Dispatch) :=
  if st.new_item_event = false then .ok (st, none)
  else
    match selectNext st with
    | (none, st1) => .ok (st1, none)
    | (some item, st1) =>
      match gen item.emotion with
      | .error e => .error e
      | .ok music =>
        let st2 :=
          if item.stage = "post" then { st1 with last_post_item := some item }
          else st1
        let st3 := { st2 with new_item_event := true }
        .ok (st3, some { item := item, music := music })

/-- Iterated runner loop: `n` successive iterations, collecting the
dispatched jobs in order, stopping at the first escaped exception. -/
def runnerIter (gen : String → Except GenError String) :
    Nat → QueueState → Except GenError (QueueState × List Dispatch)
  | 0, st => .ok (st, [])
  | n + 1, st =>
    match runnerStep gen st with
    | .error e => .error e
    | .ok (st1, d) =>
      match runnerIter gen n st1 with
      | .error e => .error e
      | .ok (st2, ds) => .ok (st2, d.toList ++ ds)

/-- Enqueue a list of already-validated items in order. -/
def enqueueAll (l : List InstanceItem) (st : QueueState) : QueueState :=
  l.foldl (fun s i => add_item i s) st

/-- `calculate_confidence` of `face_detection.py`: the average score of the
buffer entries matching the dominant emotion, divided by 100 (DeepFace scores
are in the 0–100 range), or `0` if no entry matches. -/
def calculate_confidence (buffer : List (String × ℚ)) (dominant : String) : ℚ :=
  let matching_scores := (buffer.filter (fun p => p.1 = dominant)).map (fun p => p.2)
  if matching_scores = [] then 0
  else (matching_scores.sum / matching_scores.length) / 100

/-- The keys of `collections.Counter(names)` in iteration order, i.e. the
distinct labels ordered by first occurrence. -/
def counterKeys (names : List String) : List String :=
  names.foldl (fun acc e => if e ∈ acc then acc else acc ++ [e]) []

/-- One step of the stable maximum selection performed by
`Counter.most_common`: a later key displaces the current best only on a
strictly larger count. -/
def pickStep (cnt : String → Nat) : Option String → String → Option String
  | none, k => some k
  | some b, k => if cnt k > cnt b then some k else some b

/-- `Counter(names).most_common(1)[0][0]`: among the counter's keys, the first
one (in first-occurrence order) attaining the maximal count; `most_common`
is stable, so a later key only displaces an earlier one on a strictly larger
count.  Returns `none` exactly on the empty list. -/
def mostCommon1 (names : List String) : Option String :=
  (counterKeys names).foldl (pickStep fun k => names.count k) none

/-- Appending to `collections.deque(maxlen=10)`: push on the right, evict
from the left beyond capacity 10. -/
def pushBounded (buffer : List (String × ℚ)) (x : String × ℚ) :
    List (String × ℚ) :=
  let b := buffer ++ [x]
  if b.length > 10 then b.drop (b.length - 10) else b

/-- The smoothing section of `detect_faces` (mode of the buffered labels plus
`calculate_confidence`), applied to a buffer known to be non-empty there; the
fallback values are the raw observation, as in the code's `else` branch. -/
def smoothedOf (buffer : List (String × ℚ)) (current_emotion : String)
    (emotion_score : ℚ) : String × ℚ :=
  if buffer = [] then (current_emotion, emotion_score)
  else
    let emotion_result := (mostCommon1 (buffer.map Prod.fst)).getD current_emotion
    (emotion_result, calculate_confidence buffer emotion_result)

/-- The module-level state of `face_detection.py` that `detect_faces` reads
and writes: the frame-skipping globals, the emotion buffer, and the two
rate-limiter timestamps of the notification emitter. -/
structure DetectState where
  latest_frame_bytes : Option String
  is_processing : Bool
  last_processed_image : Option String
  last_emotion_result : String
  emotion_buffer : List (String × ℚ)
  last_pre_update_time : ℚ
  last_post_update_time : ℚ
deriving DecidableEq, Repr

/-- The initial module state of `face_detection.py`. -/
def initDetectState : DetectState :=
  { latest_frame_bytes := none, is_processing := false,
    last_processed_image := none, last_emotion_result := "neutral",
    emotion_buffer := [], last_pre_update_time := 0,
    last_post_update_time := 0 }

/-- `detect_faces` of `face_detection.py`.  The OpenCV decode/draw/encode
pipeline is abstracted as `reencode`, and the cascade-plus-DeepFace analysis
of a frame as `analyze` (returning the dominant emotion and its score, with
the code's `"neutral"`/`0.0` defaults and `ValueError` swallowing folded into
the oracle); `now` stands for `time.time()`.  The returned `Bool` records
whether this call ran the analysis capability (`false` on the frame-skipping
path).  Scheduling of the emotion-update callbacks is external fire-and-forget
work; only their rate-limiter timestamps are part of the state. -/
def detect_faces (reencode : String → String) (analyze : String → String × ℚ)
    (now : ℚ) (st : DetectState) (image_bytes : String) :
    (String × String) × DetectState × Bool :=
  let st := { st with latest_frame_bytes := some image_bytes }
  if st.is_processing then
    match st.last_processed_image with
    | some img => ((img, st.last_emotion_result), st, false)
    | none => ((reencode image_bytes, "neutral"), st, false)
  else
    let st1 := { st with is_processing := true }
    let frame := image_bytes
    let (current_emotion, emotion_score) := analyze frame
    let buffer := pushBounded st1.emotion_buffer (current_emotion, emotion_score)
    let (emotion_result, confidence) :=
      smoothedOf buffer current_emotion emotion_score
    let _ := confidence
    let st2 := { st1 with emotion_buffer := buffer }
    let st3 :=
      if now - st2.last_pre_update_time ≥ 1/2 then
        { st2 with last_pre_update_time := now }
      else st2
    let st4 :=
      if now - st3.last_post_update_time ≥ 1 then
        { st3 with last_post_update_time := now }
      else st3
    let image_processed := reencode frame
    let st5 :=
      { st4 with last_processed_image := some image_processed,
                 last_emotion_result := emotion_result,
                 is_processing := false }
    ((image_processed, emotion_result), st5, true)

/-- Dictionary lookup on an association list (Python `d[k]` / `k in d`). -/
def alookup {α : Type} : List (String × α) → String → Option α
  | [], _ => none
  | p :: t, k => if p.1 = k then some p.2 else alookup t k

/-- Dictionary deletion `del d[k]` on an association list. -/
def aerase {α : Type} (l : List (String × α)) (k : String) :
    List (String × α) :=
  l.filter (fun p => p.1 ≠ k)

/-- Dictionary assignment `d[k] = v` on an association list: replace the
existing binding in place, or append a new one. -/
def aupdate {α : Type} (l : List (String × α)) (k : String) (v : α) :
    List (String × α) :=
  if (alookup l k).isSome then
    l.map (fun p => if p.1 = k then (k, v) else p)
  else l ++ [(k, v)]

/-- The server-side registry state of `cloud_server_api/main.py`: the
`music_urls` map (owner id → hash → filepath) together with the files on
disk (filepath → bytes). -/
structure RegState where
  music_urls : List (String × List (String × String))
  disk : List (String × String)
deriving DecidableEq, Repr

/-- `remove_file_and_entry` of `cloud_server_api/main.py`: drop the hash
entry from the owner's map, drop the owner once its map is empty (this line
raises `KeyError` when the owner is absent altogether, before any mutation),
then delete the file from disk if it exists. -/
def remove_file_and_entry (st : RegState) (owner_id url_hash filepath : String) :
    Except String RegState :=
  match alookup st.music_urls owner_id with
  | none => .error "KeyError"
  | some entries =>
    let fpAndEntries :=
      match alookup entries url_hash with
      | some fpStored => (fpStored, aerase entries url_hash)
      | none => (filepath, entries)
    let fp := fpAndEntries.1
    let entries' := fpAndEntries.2
    let urls' :=
      if entries' = [] then aerase st.music_urls owner_id
      else aupdate st.music_urls owner_id entries'
    let disk' :=
      if (alookup st.disk fp).isSome then aerase st.disk fp else st.disk
    .ok { music_urls := urls', disk := disk' }

/-- The response of the `/get_music` endpoint: a discovery listing, the
served file bytes, or the not-found error body. -/
inductive GetResult
  | listing (files : List String)
  | file (bytes : String)
  | notFound
deriving DecidableEq, Repr

/-- `get_music` of `cloud_server_api/main.py`.  Without a `file_id` it lists
the owner's available hashes, consuming nothing.  With a `file_id` it looks
up the filepath and, when the file exists, serves its bytes and runs the
scheduled `remove_file_and_entry` background task to completion as part of
the same request (the task's `KeyError` path mutates nothing). -/
def get_music (st : RegState) (owner_id : String) (file_id : Option String) :
    GetResult × RegState :=
  match file_id with
  | none =>
    let files_list :=
      match alookup st.music_urls owner_id with
      | some entries => entries.map (fun p => p.1)
      | none => []
    (.listing files_list, st)
  | some fid =>
    let filepath :=
      match alookup st.music_urls owner_id with
      | some entries => alookup entries fid
      | none => none
    match filepath with
    | some fp =>
      match alookup st.disk fp with
      | some bytes =>
        match remove_file_and_entry st owner_id fid fp with
        | .ok st' => (.file bytes, st')
        | .error _ => (.file bytes, st)
      | none => (.notFound, st)
    | none => (.notFound, st)

/-- A generator oracle that always succeeds, echoing the prompt's emotion. -/
def sampleGenOk : String → Except GenError String := fun e => .ok e

/-- A generator oracle that always fails, as `MusicGenerator.generate` does
when the synthesiser raises. -/
def sampleGenFail : String → Except GenError String :=
  fun _ => .error (.runtimeError "GenerationError")

/-- A concrete high-priority (stage `"post"`) request. -/
def sampleItemH : InstanceItem :=
  { sid := some "s1", stage := "post", emotion := "happy" }

/-- A concrete low-priority (stage `"pre"`) request. -/
def sampleItemL : InstanceItem :=
  { sid := some "s1", stage := "pre", emotion := "sad" }

/-- A second and third concrete high-priority request (same session). -/
def sampleItemH2 : InstanceItem :=
  { sid := some "s1", stage := "post", emotion := "sad" }

/-- A third concrete high-priority request (same session). -/
def sampleItemH3 : InstanceItem :=
  { sid := some "s1", stage := "post", emotion := "fear" }

/-- A concrete low-priority request owned by session `"sessionA"`. -/
def sampleItemA : InstanceItem :=
  { sid := some "sessionA", stage := "pre", emotion := "happy" }

/-- A concrete low-priority request owned by the distinct session
`"sessionB"`. -/
def sampleItemB : InstanceItem :=
  { sid := some "sessionB", stage := "pre", emotion := "sad" }

/-- A queue state in which session `"sessionA"` has a pending low-priority
request. -/
def sampleQueueStateA : QueueState :=
  { latest_post_item := none, latest_pre_item := some sampleItemA,
    last_post_item := none, new_item_event := false }

/-- A queue state holding only a keep-alive record. -/
def sampleKeepaliveState : QueueState :=
  { latest_post_item := none, latest_pre_item := none,
    last_post_item := some sampleItemH, new_item_event := true }

/-- A concrete image re-encoding oracle. -/
def sampleReencode : String → String := fun s => "png:" ++ s

/-- A concrete analysis oracle reporting `happy` with DeepFace score 90. -/
def sampleAnalyze : String → String × ℚ := fun _ => ("happy", 90)

/-- A concrete synthesiser oracle that always succeeds. -/
def sampleSynth : String → Except String String := fun _ => .ok "RIFFbytes"

/-- A registry holding one artifact for owner `"clientA"`. -/
def sampleRegState : RegState :=
  { music_urls := [("clientA", [("hash1", "tmp/music/hash1")])],
    disk := [("tmp/music/hash1", "wavbytes")] }

/-- A detection state captured while an analysis is in flight
(`is_processing` set) with one completed result cached. -/
def sampleBusyState : DetectState :=
  { latest_frame_bytes := some "frame0", is_processing := true,
    last_processed_image := some "png:frame0", last_emotion_result := "happy",
    emotion_buffer := [("happy", 90)], last_pre_update_time := 0,
    last_post_update_time := 0 }

/-- C10: for every emotion string the emotion-to-prompt mapping returns a
non-empty prompt, falling back (after lowercasing) to the neutral prompt on
unknown labels, so the empty-prompt `ValueError` branch of `generate` is
unreachable for every synthesiser and duration. -/
theorem c10_prompt_total (e : String) :
    emotion_to_prompt e ≠ "" ∧
    (emotion_prompt (pyLower e) = none →
      emotion_to_prompt e = neutralPrompt ++ ", " ++ "C key") ∧
    ∀ (synth : String → Except String String) (d : Int),
      generate synth e d ≠ Except.error GenError.emptyPrompt := by
  have hne : emotion_to_prompt e ≠ "" := by
    intro h
    have hl := congrArg String.length h
    simp [emotion_to_prompt, String.length_append] at hl
    exact absurd hl.1.2 (by decide)
  refine ⟨hne, ?_, ?_⟩
  · intro h
    simp [emotion_to_prompt, h]
  · intro synth d h
    rw [generate] at h
    rw [if_neg hne] at h
    by_cases hd : d < 0
    · rw [if_pos hd] at h
      exact GenError.noConfusion (Except.error.inj h)
    · rw [if_neg hd] at h
      cases hsy : synth (emotion_to_prompt e) <;> rw [hsy] at h
      · exact GenError.noConfusion (Except.error.inj h)
      · exact Except.noConfusion h

/-- Witness for C10 at the label `"error"` (not a key of the dictionary) and
at an arbitrary unknown mixed-case label. -/
theorem c10_prompt_total_witness :
    emotion_to_prompt "error" ≠ "" ∧
    emotion_to_prompt "error" = neutralPrompt ++ ", " ++ "C key" ∧
    generate sampleSynth "error" 10 ≠ Except.error GenError.emptyPrompt ∧
    emotion_to_prompt "HAPPY" ≠ "" :=
  ⟨(c10_prompt_total "error").1,
   (c10_prompt_total "error").2.1 rfl,
   (c10_prompt_total "error").2.2 sampleSynth 10,
   (c10_prompt_total "HAPPY").1⟩

/-- C9: constructing a request with neither a session id nor a client id
(missing or empty) fails with `ValidationError` and leaves the pending slots
of the queue untouched; construction succeeds whenever at least one of the
two identifiers is provided and non-empty. -/
theorem c9_validation (sid client_id : Option String) (stage emotion : String)
    (md : List (String × String)) (st : QueueState) :
    ((sid = none ∨ sid = some "") → (client_id = none ∨ client_id = some "") →
      mkInstanceItem sid client_id stage emotion md = .error "ValidationError" ∧
      add_item_checked sid client_id stage emotion md st =
        (.error "ValidationError", st)) ∧
    (∀ s : String, s ≠ "" → (sid = some s ∨ client_id = some s) →
      mkInstanceItem sid client_id stage emotion md =
        .ok { sid := sid, client_id := client_id, stage := stage,
              emotion := emotion, metadata := md }) := by
  constructor
  · intro hs hc
    have h1 : orNone sid = none := by
      rcases hs with h | h <;> simp [h, orNone]
    have h2 : orNone client_id = none := by
      rcases hc with h | h <;> simp [h, orNone]
    refine ⟨?_, ?_⟩ <;>
      simp [mkInstanceItem, add_item_checked, check_sid_or_client_id, h1, h2]
  · intro s hs hor
    have hno : ¬(orNone sid = none ∧ orNone client_id = none) := by
      rcases hor with h | h <;> simp [h, orNone, hs]
    simp [mkInstanceItem, check_sid_or_client_id, hno]

/-- Witness for C9: a request with an empty sid and no client id is rejected
without touching the queue, while a request with only a sid succeeds. -/
theorem c9_validation_witness :
    mkInstanceItem (some "") none "post" "happy" [] =
      .error "ValidationError" ∧
    add_item_checked (some "") none "post" "happy" [] initQueueState =
      (.error "ValidationError", initQueueState) ∧
    mkInstanceItem (some "s1") none "post" "happy" [] =
      .ok { sid := some "s1", client_id := none, stage := "post",
            emotion := "happy", metadata := [] } :=
  ⟨((c9_validation (some "") none "post" "happy" [] initQueueState).1
      (Or.inr rfl) (Or.inl rfl)).1,
   ((c9_validation (some "") none "post" "happy" [] initQueueState).1
      (Or.inr rfl) (Or.inl rfl)).2,
   (c9_validation (some "s1") none "post" "happy" [] initQueueState).2
      "s1" (by decide) (Or.inl rfl)⟩

/-- C5 counterexample: the pending slots are not per-session.  With session
`"sessionA"`'s low-priority request pending, enqueuing a low-priority request
of the distinct session `"sessionB"` overwrites the one shared slot, so
session A's pending request is gone. -/
theorem c5_counterexample :
    (add_item sampleItemB sampleQueueStateA).latest_pre_item =
      some sampleItemB ∧
    sampleItemB.sid ≠ sampleItemA.sid ∧
    (add_item sampleItemB sampleQueueStateA).latest_pre_item ≠
      some sampleItemA := by
  refine ⟨rfl, by decide, ?_⟩
  intro h
  have := Option.some.inj h
  exact absurd (congrArg InstanceItem.sid this) (by decide)

/-- C5 amended: the queue keeps one global pending slot per priority level,
shared by all sessions.  Enqueuing overwrites the slot matching the request's
stage regardless of the request's owner, leaves the other slot and the
keep-alive record unchanged, and sets the wake event. -/
theorem c5_global_slot (item : InstanceItem) (st : QueueState) :
    (item.stage = "pre" →
      add_item item st =
        { st with latest_pre_item := some item, new_item_event := true }) ∧
    (item.stage = "post" →
      add_item item st =
        { st with latest_post_item := some item, new_item_event := true }) := by
  constructor <;> intro h <;> simp [add_item, h]

/-- Witness for C5 amended: session B's enqueue lands in the single shared
low-priority slot. -/
theorem c5_global_slot_witness :
    add_item sampleItemB sampleQueueStateA =
      { sampleQueueStateA with latest_pre_item := some sampleItemB,
                               new_item_event := true } :=
  (c5_global_slot sampleItemB sampleQueueStateA).1 rfl

/-- C1: with a low-priority (`"pre"`) and a high-priority (`"post"`) request
both pending, the next runner iteration dispatches the high-priority one and
clears its slot while the low-priority one stays pending, and the following
iteration dispatches the low-priority one. -/
theorem c1_priority (st : QueueState) (L H : InstanceItem)
    (gen : String → Except GenError String) (mL mH : String)
    (hL : L.stage = "pre") (hH : H.stage = "post")
    (hgL : gen L.emotion = .ok mL) (hgH : gen H.emotion = .ok mH) :
    ∃ st1 st2,
      runnerStep gen (add_item H (add_item L st)) =
        .ok (st1, some { item := H, music := mH }) ∧
      st1.latest_post_item = none ∧ st1.latest_pre_item = some L ∧
      runnerStep gen st1 = .ok (st2, some { item := L, music := mL }) := by
  have e1 : add_item H (add_item L st) =
      { st with latest_pre_item := some L, latest_post_item := some H,
                new_item_event := true } := by
    simp [add_item, hL, hH]
  refine Exists.intro
    ({ st with latest_post_item := none, latest_pre_item := some L,
               last_post_item := some H, new_item_event := true }) ?_
  refine Exists.intro
    ({ st with latest_post_item := none, latest_pre_item := none,
               last_post_item := some H, new_item_event := true }) ?_
  refine ⟨?_, rfl, rfl, ?_⟩
  · rw [e1]
    simp [runnerStep, selectNext, hgH, hH]
  · simp [runnerStep, selectNext, hgL, hL]

/-- Witness for C1 on concrete requests and a succeeding generator. -/
theorem c1_priority_witness :
    ∃ st1 st2,
      runnerStep sampleGenOk (add_item sampleItemH (add_item sampleItemL initQueueState)) =
        .ok (st1, some { item := sampleItemH, music := "happy" }) ∧
      st1.latest_post_item = none ∧ st1.latest_pre_item = some sampleItemL ∧
      runnerStep sampleGenOk st1 =
        .ok (st2, some { item := sampleItemL, music := "sad" }) :=
  c1_priority initQueueState sampleItemL sampleItemH sampleGenOk
    "sad" "happy" rfl rfl rfl rfl

/-- C3: when both pending slots are empty but a keep-alive record exists, the
runner re-offers that record and re-arms the wake event in the same step;
with a succeeding generator the state is a fixed point, so the same payload
is re-dispatched on every following iteration; with no record either, the
step consumes the event and dispatches nothing (the loop then blocks). -/
theorem c3_keepalive (st : QueueState) (r : InstanceItem) (m : String)
    (gen : String → Except GenError String)
    (h1 : st.latest_post_item = none) (h2 : st.latest_pre_item = none)
    (hev : st.new_item_event = true) :
    (st.last_post_item = some r → r.stage = "post" → gen r.emotion = .ok m →
      runnerStep gen st = .ok (st, some { item := r, music := m }) ∧
      ∀ n, runnerIter gen n st =
        .ok (st, List.replicate n { item := r, music := m })) ∧
    (st.last_post_item = none →
      runnerStep gen st = .ok ({ st with new_item_event := false }, none)) := by
  obtain ⟨p, q, l, ev⟩ := st
  simp only at h1 h2 hev
  subst h1; subst h2; subst hev
  constructor
  · intro hlast hstage hgen
    simp only at hlast
    subst hlast
    have hstep : runnerStep gen ⟨none, none, some r, true⟩ =
        .ok (⟨none, none, some r, true⟩, some { item := r, music := m }) := by
      simp [runnerStep, selectNext, hgen, hstage]
    refine ⟨hstep, ?_⟩
    intro n
    induction n with
    | zero => simp [runnerIter]
    | succ k ih =>
        simp [runnerIter, hstep, ih, List.replicate_succ]
  · intro hlast
    simp only at hlast
    subst hlast
    simp [runnerStep, selectNext]

/-- Witness for C3 on a concrete keep-alive state: the step is a fixed point
and three iterations dispatch the recorded payload three times. -/
theorem c3_keepalive_witness :
    runnerStep sampleGenOk sampleKeepaliveState =
      .ok (sampleKeepaliveState, some { item := sampleItemH, music := "happy" }) ∧
    runnerIter sampleGenOk 3 sampleKeepaliveState =
      .ok (sampleKeepaliveState,
           List.replicate 3 { item := sampleItemH, music := "happy" }) :=
  ⟨((c3_keepalive sampleKeepaliveState sampleItemH "happy" sampleGenOk
      rfl rfl rfl).1 rfl rfl rfl).1,
   ((c3_keepalive sampleKeepaliveState sampleItemH "happy" sampleGenOk
      rfl rfl rfl).1 rfl rfl rfl).2 3⟩

/-- C4 counterexample: there is no handler around the generation call in
`QueueManager.runner`, so when the generation capability fails the exception
escapes the worker's control loop instead of being contained: on a concrete
pending request and a failing generator, the runner iteration evaluates to
the propagated error, not to a successor state, so the loop does not go on to
process further requests. -/
theorem c4_counterexample :
    runnerStep sampleGenFail (add_item sampleItemH initQueueState) =
      .error (.runtimeError "GenerationError") := by
  rfl

/-- C4 amended: when the selected request's generation call fails, the
runner iteration propagates the error out of the loop (no dispatch, no
successor state); the failed request has already been removed from its
pending slot, so it is dropped without retry, but the loop does not go on. -/
theorem c4_failure_propagates (gen : String → Except GenError String)
    (st st1 : QueueState) (item : InstanceItem) (e : GenError)
    (hev : st.new_item_event = true)
    (hsel : selectNext st = (some item, st1))
    (hfail : gen item.emotion = .error e) :
    runnerStep gen st = .error e ∧
    (st.latest_post_item = some item → st1.latest_post_item = none) ∧
    (st.latest_post_item = none → st.latest_pre_item = some item →
      st1.latest_pre_item = none) := by
  refine ⟨?_, ?_, ?_⟩
  · simp [runnerStep, hev, hsel, hfail]
  · intro hpost
    simp [selectNext, hpost] at hsel
    subst hsel
    rfl
  · intro hpost hpre
    simp [selectNext, hpost, hpre] at hsel
    subst hsel
    rfl

/-- Witness for C4 amended, on a concrete pending request and failing
generator. -/
theorem c4_failure_propagates_witness :
    runnerStep sampleGenFail (add_item sampleItemH initQueueState) =
      .error (.runtimeError "GenerationError") ∧
    ((add_item sampleItemH initQueueState).latest_post_item = some sampleItemH →
      (⟨none, none, none, false⟩ : QueueState).latest_post_item = none) :=
  have h := c4_failure_propagates sampleGenFail
    (add_item sampleItemH initQueueState) ⟨none, none, none, false⟩
    sampleItemH (.runtimeError "GenerationError") rfl rfl rfl
  ⟨h.1, h.2.1⟩

/-- Folding a batch of `"post"` items into the queue overwrites the single
high-priority slot with the last of them and touches nothing else. -/
theorem enqueueAll_post_stage (l : List InstanceItem) (st : QueueState)
    (hne : l ≠ []) (hall : ∀ i ∈ l, i.stage = "post") :
    enqueueAll l st =
      { st with latest_post_item := l.getLast?, new_item_event := true } := by
  induction l generalizing st with
  | nil => exact absurd rfl hne
  | cons a t ih =>
    have ha : a.stage = "post" := hall a (by simp)
    cases t with
    | nil =>
      simp [enqueueAll, add_item, ha]
    | cons b t' =>
      have hstep : enqueueAll (a :: b :: t') st =
          enqueueAll (b :: t') (add_item a st) := rfl
      rw [hstep, ih (add_item a st) (by simp)
            (fun i hi => hall i (List.mem_cons_of_mem a hi))]
      simp [add_item, ha, List.getLast?_cons_cons]

/-- Folding a batch of `"pre"` items into the queue overwrites the single
low-priority slot with the last of them and touches nothing else. -/
theorem enqueueAll_pre_stage (l : List InstanceItem) (st : QueueState)
    (hne : l ≠ []) (hall : ∀ i ∈ l, i.stage = "pre") :
    enqueueAll l st =
      { st with latest_pre_item := l.getLast?, new_item_event := true } := by
  induction l generalizing st with
  | nil => exact absurd rfl hne
  | cons a t ih =>
    have ha : a.stage = "pre" := hall a (by simp)
    cases t with
    | nil =>
      simp [enqueueAll, add_item, ha]
    | cons b t' =>
      have hstep : enqueueAll (a :: b :: t') st =
          enqueueAll (b :: t') (add_item a st) := rfl
      rw [hstep, ih (add_item a st) (by simp)
            (fun i hi => hall i (List.mem_cons_of_mem a hi))]
      simp [add_item, ha, List.getLast?_cons_cons]

/-- C2: enqueues of the same priority coalesce.  Two same-stage enqueues in a
row leave exactly the state of the second alone; a whole non-empty batch of
same-priority enqueues before a drain leaves that priority's slot holding
only the newest request, leaves the other slot alone, and the next selection
dispatches exactly that newest request. -/
theorem c2_coalescing (s : String) (l : List InstanceItem) (st : QueueState)
    (hne : l ≠ []) (hall : ∀ i ∈ l, i.stage = s)
    (hpost : st.latest_post_item = none) :
    (∀ (r1 r2 : InstanceItem) (st' : QueueState), r1.stage = r2.stage →
      add_item r2 (add_item r1 st') = add_item r2 st') ∧
    (s = "post" →
      (enqueueAll l st).latest_post_item = l.getLast? ∧
      (enqueueAll l st).latest_pre_item = st.latest_pre_item ∧
      (selectNext (enqueueAll l st)).1 = l.getLast?) ∧
    (s = "pre" →
      (enqueueAll l st).latest_pre_item = l.getLast? ∧
      (enqueueAll l st).latest_post_item = none ∧
      (selectNext (enqueueAll l st)).1 = l.getLast?) := by
  obtain ⟨x, hx⟩ : ∃ x, l.getLast? = some x := by
    cases l with
    | nil => exact absurd rfl hne
    | cons a t => exact ⟨_, List.getLast?_eq_getLast (a :: t) (by simp)⟩
  refine ⟨?_, ?_, ?_⟩
  · intro r1 r2 st' h12
    by_cases hp : r2.stage = "post"
    · have h1 : r1.stage = "post" := h12.trans hp
      simp [add_item, h1, hp]
    · by_cases hq : r2.stage = "pre"
      · have h1 : r1.stage = "pre" := h12.trans hq
        simp [add_item, h1, hq]
      · have h1p : r1.stage ≠ "post" := fun h => hp (h12.symm.trans h)
        have h1q : r1.stage ≠ "pre" := fun h => hq (h12.symm.trans h)
        simp [add_item, hp, hq, h1p, h1q]
  · intro hs
    subst hs
    rw [enqueueAll_post_stage l st hne hall]
    refine ⟨rfl, rfl, ?_⟩
    simp [selectNext, hx]
  · intro hs
    subst hs
    rw [enqueueAll_pre_stage l st hne hall]
    refine ⟨rfl, hpost, ?_⟩
    simp [selectNext, hx, hpost]

/-- Witness for C2: three rapid high-priority enqueues H1, H2, H3 leave one
pending job carrying H3, and the next selection dispatches H3. -/
theorem c2_coalescing_witness :
    (enqueueAll [sampleItemH, sampleItemH2, sampleItemH3] initQueueState).latest_post_item =
      some sampleItemH3 ∧
    (selectNext (enqueueAll [sampleItemH, sampleItemH2, sampleItemH3] initQueueState)).1 =
      some sampleItemH3 ∧
    add_item sampleItemH2 (add_item sampleItemH initQueueState) =
      add_item sampleItemH2 initQueueState :=
  have h := c2_coalescing "post" [sampleItemH, sampleItemH2, sampleItemH3]
    initQueueState (by simp) (by decide) rfl
  ⟨(h.2.1 rfl).1, (h.2.1 rfl).2.2, h.1 sampleItemH sampleItemH2 initQueueState rfl⟩

/-- C6: while an analysis is in flight (`is_processing` set), a frame
submission starts no new analysis: it records the frame, returns the cached
`(processedBytes, label)` pair unchanged — or the re-encoded input frame with
label `"neutral"` when no analysis has ever completed — and two submissions
during the same slow analysis both return that same cached result with zero
further invocations of the analysis capability. -/
theorem c6_single_flight (reencode : String → String)
    (analyze : String → String × ℚ) (now : ℚ) (st : DetectState)
    (f1 f2 : String) (hbusy : st.is_processing = true) :
    (∀ p, st.last_processed_image = some p →
      detect_faces reencode analyze now st f1 =
        ((p, st.last_emotion_result),
         { st with latest_frame_bytes := some f1 }, false) ∧
      detect_faces reencode analyze now
          (detect_faces reencode analyze now st f1).2.1 f2 =
        ((p, st.last_emotion_result),
         { st with latest_frame_bytes := some f2 }, false)) ∧
    (st.last_processed_image = none →
      detect_faces reencode analyze now st f1 =
        ((reencode f1, "neutral"),
         { st with latest_frame_bytes := some f1 }, false)) := by
  constructor
  · intro p hp
    have h1 : detect_faces reencode analyze now st f1 =
        ((p, st.last_emotion_result),
         { st with latest_frame_bytes := some f1 }, false) := by
      simp [detect_faces, hbusy, hp]
    refine ⟨h1, ?_⟩
    rw [h1]
    simp [detect_faces, hbusy, hp]
  · intro hp
    simp [detect_faces, hbusy, hp]

/-- Witness for C6 on a concrete in-flight state: two frames submitted while
busy both return the cached pair and run no analysis. -/
theorem c6_single_flight_witness :
    detect_faces sampleReencode sampleAnalyze 5 sampleBusyState "frameA" =
      (("png:frame0", "happy"),
       { sampleBusyState with latest_frame_bytes := some "frameA" }, false) ∧
    detect_faces sampleReencode sampleAnalyze 5
        (detect_faces sampleReencode sampleAnalyze 5 sampleBusyState "frameA").2.1
        "frameB" =
      (("png:frame0", "happy"),
       { sampleBusyState with latest_frame_bytes := some "frameB" }, false) :=
  (c6_single_flight sampleReencode sampleAnalyze 5 sampleBusyState
    "frameA" "frameB" rfl).1 "png:frame0" rfl

/-- Lookup after dictionary deletion of the same key misses. -/
theorem alookup_aerase_self {α : Type} (l : List (String × α)) (k : String) :
    alookup (aerase l k) k = none := by
  induction l with
  | nil => rfl
  | cons p t ih =>
    by_cases hp : p.1 = k
    · simpa [aerase, alookup, hp] using ih
    · simpa [aerase, alookup, hp] using ih

/-- Lookup in a dictionary whose binding for `k` was replaced in place. -/
theorem alookup_map_replace {α : Type} (l : List (String × α)) (k : String)
    (v : α) (h : (alookup l k).isSome) :
    alookup (l.map (fun p => if p.1 = k then (k, v) else p)) k = some v := by
  induction l with
  | nil => simp [alookup] at h
  | cons p t ih =>
    by_cases hp : p.1 = k
    · simp [alookup, hp]
    · have ht : (alookup t k).isSome := by simpa [alookup, hp] using h
      simpa [alookup, hp] using ih ht

/-- Lookup in a dictionary extended with a fresh binding for `k`. -/
theorem alookup_append_fresh {α : Type} (l : List (String × α)) (k : String)
    (v : α) (h : alookup l k = none) :
    alookup (l ++ [(k, v)]) k = some v := by
  induction l with
  | nil => simp [alookup]
  | cons p t ih =>
    by_cases hp : p.1 = k
    · simp [alookup, hp] at h
    · have ht : alookup t k = none := by simpa [alookup, hp] using h
      simpa [alookup, hp] using ih ht

/-- Lookup after dictionary assignment of the same key hits the new value. -/
theorem alookup_aupdate_self {α : Type} (l : List (String × α)) (k : String)
    (v : α) : alookup (aupdate l k v) k = some v := by
  unfold aupdate
  by_cases h : (alookup l k).isSome
  · rw [if_pos h]
    exact alookup_map_replace l k v h
  · rw [if_neg h]
    exact alookup_append_fresh l k v (by simpa using h)

/-- C8: retrieving a stored artifact by `(owner, file_id)` serves its bytes
and, through the background task run as part of the same request, removes the
registry entry, so a second retrieval of the same identifier answers
not-found; retrieval without a `file_id` lists the owner's identifiers and
consumes nothing. -/
theorem c8_one_shot (st : RegState) (owner h fp bytes : String)
    (entries : List (String × String))
    (hown : alookup st.music_urls owner = some entries)
    (hh : alookup entries h = some fp)
    (hd : alookup st.disk fp = some bytes) :
    ∃ st', get_music st owner (some h) = (.file bytes, st') ∧
      get_music st' owner (some h) = (.notFound, st') ∧
      get_music st owner none =
        (.listing (entries.map (fun p => p.1)), st) := by
  have hrem : remove_file_and_entry st owner h fp =
      .ok { music_urls :=
              if aerase entries h = [] then aerase st.music_urls owner
              else aupdate st.music_urls owner (aerase entries h),
            disk := aerase st.disk fp } := by
    simp [remove_file_and_entry, hown, hh, hd]
  refine Exists.intro
    ({ music_urls :=
         if aerase entries h = [] then aerase st.music_urls owner
         else aupdate st.music_urls owner (aerase entries h),
       disk := aerase st.disk fp }) ⟨?_, ?_, ?_⟩
  · simp [get_music, hown, hh, hd, hrem]
  · by_cases he : aerase entries h = []
    · simp [get_music, he, alookup_aerase_self]
    · simp [get_music, he, alookup_aupdate_self, alookup_aerase_self]
  · simp [get_music, hown]

/-- Witness for C8 on a one-artifact registry. -/
theorem c8_one_shot_witness :
    ∃ st', get_music sampleRegState "clientA" (some "hash1") =
        (.file "wavbytes", st') ∧
      get_music st' "clientA" (some "hash1") = (.notFound, st') ∧
      get_music sampleRegState "clientA" none =
        (.listing ["hash1"], sampleRegState) :=
  c8_one_shot sampleRegState "clientA" "hash1" "tmp/music/hash1" "wavbytes"
    [("hash1", "tmp/music/hash1")] rfl rfl rfl

/-- The stable maximum fold starting from a candidate always yields some
key. -/
theorem pickStep_fold_isSome (cnt : String → Nat) (t : List String)
    (b : String) :
    ∃ m, t.foldl (pickStep cnt) (some b) = some m := by
  induction t generalizing b with
  | nil => exact ⟨b, rfl⟩
  | cons k t ih =>
    rw [List.foldl_cons]
    by_cases hk : cnt k > cnt b
    · rw [show pickStep cnt (some b) k = some k by simp [pickStep, hk]]
      exact ih k
    · rw [show pickStep cnt (some b) k = some b by simp [pickStep, hk]]
      exact ih b

/-- Decomposition of the stable maximum fold: the winner `m` splits the key
list into strictly-smaller-count keys before it (so no earlier key ties it)
and at-most-equal-count keys after it. -/
theorem pickStep_fold_decomp (cnt : String → Nat) (t : List String)
    (b m : String) (hfold : t.foldl (pickStep cnt) (some b) = some m) :
    ∃ t₁ t₂, b :: t = t₁ ++ m :: t₂ ∧ (∀ k ∈ t₁, cnt k < cnt m) ∧
      ∀ k ∈ t₂, cnt k ≤ cnt m := by
  induction t generalizing b with
  | nil =>
    obtain rfl : b = m := Option.some.inj hfold
    exact ⟨[], [], rfl, by simp, by simp⟩
  | cons k t ih =>
    rw [List.foldl_cons] at hfold
    by_cases hk : cnt k > cnt b
    · rw [show pickStep cnt (some b) k = some k by simp [pickStep, hk]] at hfold
      obtain ⟨t₁, t₂, hdec, h1, h2⟩ := ih k hfold
      have hkm : cnt k ≤ cnt m := by
        cases t₁ with
        | nil =>
          simp only [List.nil_append] at hdec
          injection hdec with hkm' _
          exact le_of_eq (congrArg cnt hkm')
        | cons a t₁' =>
          rw [List.cons_append] at hdec
          injection hdec with hka _
          exact le_of_lt (hka ▸ h1 a (List.mem_cons_self a t₁'))
      refine ⟨b :: t₁, t₂, ?_, ?_, h2⟩
      · rw [List.cons_append, ← hdec]
      · intro x hx
        rcases List.mem_cons.mp hx with rfl | hx
        · exact lt_of_lt_of_le hk hkm
        · exact h1 x hx
    · rw [show pickStep cnt (some b) k = some b by simp [pickStep, hk]] at hfold
      obtain ⟨t₁, t₂, hdec, h1, h2⟩ := ih b hfold
      cases t₁ with
      | nil =>
        simp only [List.nil_append] at hdec
        injection hdec with hbm hts
        subst hbm
        refine ⟨[], k :: t₂, ?_, by simp, ?_⟩
        · rw [List.nil_append, hts]
        · intro x hx
          rcases List.mem_cons.mp hx with rfl | hx
          · exact le_of_not_lt hk
          · exact h2 x hx
      | cons a t₁' =>
        rw [List.cons_append] at hdec
        injection hdec with hba hts
        subst hba
        have hbm : cnt b < cnt m := h1 b (List.mem_cons_self b t₁')
        refine ⟨b :: k :: t₁', t₂, ?_, ?_, h2⟩
        · rw [hts]
          rfl
        · intro x hx
          rcases List.mem_cons.mp hx with rfl | hx
          · exact hbm
          · rcases List.mem_cons.mp hx with rfl | hx
            · exact lt_of_le_of_lt (le_of_not_lt hk) hbm
            · exact h1 x (List.mem_cons_of_mem b hx)

/-- Membership in the counter-key fold: exactly the keys of the accumulator
and of the remaining list. -/
theorem mem_counterKeys_fold (l : List String) (acc : List String)
    (x : String) :
    (x ∈ l.foldl (fun a e => if e ∈ a then a else a ++ [e]) acc) ↔
      x ∈ acc ∨ x ∈ l := by
  induction l generalizing acc with
  | nil => simp
  | cons e t ih =>
    rw [List.foldl_cons]
    by_cases he : e ∈ acc
    · rw [if_pos he, ih]
      constructor
      · rintro (h | h)
        · exact Or.inl h
        · exact Or.inr (List.mem_cons_of_mem e h)
      · rintro (h | h)
        · exact Or.inl h
        · rcases List.mem_cons.mp h with rfl | h
          · exact Or.inl he
          · exact Or.inr h
    · rw [if_neg he, ih]
      simp only [List.mem_append, List.mem_cons, List.mem_singleton]
      tauto

/-- The counter's keys are exactly the labels occurring in the list. -/
theorem mem_counterKeys (l : List String) (x : String) :
    x ∈ counterKeys l ↔ x ∈ l := by
  simpa [counterKeys] using mem_counterKeys_fold l [] x

/-- Characterisation of `most_common(1)`: the returned label occurs in the
list, its count is maximal, and every key first inserted before it has a
strictly smaller count (the tie-break picks the earliest-inserted maximal
key). -/
theorem mostCommon1_spec (names : List String) (m : String)
    (h : mostCommon1 names = some m) :
    m ∈ names ∧ (∀ x ∈ names, names.count x ≤ names.count m) ∧
    ∃ F₁ F₂, counterKeys names = F₁ ++ m :: F₂ ∧
      (∀ k ∈ F₁, names.count k < names.count m) ∧
      ∀ k ∈ F₂, names.count k ≤ names.count m := by
  unfold mostCommon1 at h
  rcases hck : counterKeys names with _ | ⟨a, t⟩
  · rw [hck] at h
    simp at h
  · rw [hck, List.foldl_cons] at h
    rw [show pickStep (fun k => names.count k) none a = some a from rfl] at h
    obtain ⟨t₁, t₂, hdec, h1, h2⟩ := pickStep_fold_decomp _ t a m h
    have hmem : m ∈ counterKeys names := by
      rw [hck, hdec]
      exact List.mem_append_right _ (List.mem_cons_self m t₂)
    have hm : m ∈ names := (mem_counterKeys names m).mp hmem
    refine ⟨hm, ?_, t₁, t₂, hdec, h1, h2⟩
    intro x hx
    have hxck : x ∈ counterKeys names := (mem_counterKeys names x).mpr hx
    rw [hck, hdec] at hxck
    rcases List.mem_append.mp hxck with hx1 | hx2
    · exact le_of_lt (h1 x hx1)
    · rcases List.mem_cons.mp hx2 with rfl | hx2
      · exact le_refl _
      · exact h2 x hx2

/-- A label occurring in the buffer has a non-empty matching filter. -/
theorem filter_fst_ne_nil (buffer : List (String × ℚ)) (m : String)
    (hm : m ∈ buffer.map Prod.fst) :
    buffer.filter (fun p => p.1 = m) ≠ [] := by
  obtain ⟨p, hp, hfst⟩ := List.mem_map.mp hm
  exact List.ne_nil_of_mem (List.mem_filter.mpr ⟨hp, by simp [hfst]⟩)

/-- C7 counterexample: the smoothing computed by the code disagrees with the
claim in both respects.  On a two-label tie the code returns the
earliest-inserted label `"sad"`, not the most-recently-inserted `"happy"`;
and on the claim's own example sequence the confidence is the matching mean
divided by 100 (the DeepFace score normalisation), `1/125 = 0.008`, not
`0.8`. -/
theorem c7_counterexample :
    mostCommon1 ["sad", "happy"] = some "sad" ∧
    (some "sad" : Option String) ≠ some "happy" ∧
    smoothedOf [("happy", 9/10), ("happy", 8/10), ("sad", 6/10), ("happy", 7/10)]
      "happy" (7/10) = ("happy", 1/125) ∧
    ((1 : ℚ)/125) ≠ 4/5 := by
  refine ⟨by decide, by decide, ?_, by norm_num⟩
  show ("happy", ((9:ℚ)/10 + (8/10 + (7/10 + 0))) / 3 / 100) = ("happy", 1/125)
  norm_num

/-- C7 amended: over a non-empty bounded history the smoothed label is the
label of maximal count in the window with ties broken in favour of the
earliest-inserted label achieving the maximum (every key first inserted
before the winner has a strictly smaller count), and the smoothed confidence
is the mean of the scores of the matching observations divided by 100. -/
theorem c7_smoothing (buffer : List (String × ℚ)) (ce : String) (cs : ℚ)
    (hne : buffer ≠ []) :
    ∃ m, mostCommon1 (buffer.map Prod.fst) = some m ∧
      smoothedOf buffer ce cs =
        (m, ((buffer.filter (fun p => p.1 = m)).map (fun p => p.2)).sum /
            ((buffer.filter (fun p => p.1 = m)).map (fun p => p.2)).length / 100) ∧
      m ∈ buffer.map Prod.fst ∧
      (∀ x ∈ buffer.map Prod.fst,
        (buffer.map Prod.fst).count x ≤ (buffer.map Prod.fst).count m) ∧
      ∃ F₁ F₂, counterKeys (buffer.map Prod.fst) = F₁ ++ m :: F₂ ∧
        (∀ k ∈ F₁,
          (buffer.map Prod.fst).count k < (buffer.map Prod.fst).count m) ∧
        ∀ k ∈ F₂,
          (buffer.map Prod.fst).count k ≤ (buffer.map Prod.fst).count m := by
  have hnames : buffer.map Prod.fst ≠ [] := by
    intro hmap
    exact hne (List.map_eq_nil_iff.mp hmap)
  obtain ⟨m, hm⟩ : ∃ m, mostCommon1 (buffer.map Prod.fst) = some m := by
    unfold mostCommon1
    rcases hck : counterKeys (buffer.map Prod.fst) with _ | ⟨a, t⟩
    · obtain ⟨x, hx⟩ := List.exists_mem_of_ne_nil _ hnames
      have := (mem_counterKeys (buffer.map Prod.fst) x).mpr hx
      rw [hck] at this
      exact absurd this (List.not_mem_nil x)
    · rw [List.foldl_cons]
      rw [show pickStep (fun k => (buffer.map Prod.fst).count k) none a =
            some a from rfl]
      exact pickStep_fold_isSome _ t a
  obtain ⟨hmem, hmax, F₁, F₂, hdec, h1, h2⟩ := mostCommon1_spec _ m hm
  have hfil : buffer.filter (fun p => p.1 = m) ≠ [] :=
    filter_fst_ne_nil buffer m hmem
  have hms : (buffer.filter (fun p => p.1 = m)).map (fun p => p.2) ≠ [] := by
    intro hmap
    exact hfil (List.map_eq_nil_iff.mp hmap)
  refine ⟨m, hm, ?_, hmem, hmax, F₁, F₂, hdec, h1, h2⟩
  simp only [smoothedOf, if_neg hne, hm, Option.getD_some,
    calculate_confidence, if_neg hms]

/-- Witness for C7 amended, on the claim's example window with the scores as
stored by the code (DeepFace 0–100 range). -/
theorem c7_smoothing_witness :
    ∃ m,
      mostCommon1 ([("happy", (90:ℚ)), ("happy", 80), ("sad", 60),
          ("happy", 70)].map Prod.fst) = some m ∧
      smoothedOf [("happy", 90), ("happy", 80), ("sad", 60), ("happy", 70)]
          "happy" 70 =
        (m, (([("happy", (90:ℚ)), ("happy", 80), ("sad", 60),
              ("happy", 70)].filter (fun p => p.1 = m)).map (fun p => p.2)).sum /
            (([("happy", (90:ℚ)), ("happy", 80), ("sad", 60),
              ("happy", 70)].filter (fun p => p.1 = m)).map (fun p => p.2)).length /
            100) ∧
      m ∈ [("happy", (90:ℚ)), ("happy", 80), ("sad", 60),
          ("happy", 70)].map Prod.fst ∧
      (∀ x ∈ [("happy", (90:ℚ)), ("happy", 80), ("sad", 60),
          ("happy", 70)].map Prod.fst,
        ([("happy", (90:ℚ)), ("happy", 80), ("sad", 60),
          ("happy", 70)].map Prod.fst).count x ≤
        ([("happy", (90:ℚ)), ("happy", 80), ("sad", 60),
          ("happy", 70)].map Prod.fst).count m) ∧
      ∃ F₁ F₂,
        counterKeys ([("happy", (90:ℚ)), ("happy", 80), ("sad", 60),
            ("happy", 70)].map Prod.fst) = F₁ ++ m :: F₂ ∧
        (∀ k ∈ F₁,
          ([("happy", (90:ℚ)), ("happy", 80), ("sad", 60),
            ("happy", 70)].map Prod.fst).count k <
          ([("happy", (90:ℚ)), ("happy", 80), ("sad", 60),
            ("happy", 70)].map Prod.fst).count m) ∧
        ∀ k ∈ F₂,
          ([("happy", (90:ℚ)), ("happy", 80), ("sad", 60),
            ("happy", 70)].map Prod.fst).count k ≤
          ([("happy", (90:ℚ)), ("happy", 80), ("sad", 60),
            ("happy", 70)].map Prod.fst).count m :=
  c7_smoothing [("happy", 90), ("happy", 80), ("sad", 60), ("happy", 70)]
    "happy" 70 (by decide)
